import Mathlib

/-!
Shallow embedding of `src/server.c` (a minimal TCP server that drains client
bytes into a per-connection growable buffer) and proofs of the specification
claims about it.

Modelling conventions:
* C `int` fields become `Int`; unsigned fields become `Nat`.
* The heap block behind `client_buffer->buffer` is modelled by a total byte
  map `buffer : Int → Nat` together with `alloc : Nat`, the number of bytes
  currently allocated by `malloc`/`realloc` for that block.  `alloc` is not a
  field of the C struct; it models the allocator state, so that "the bytes
  written fit inside the allocation" is expressible.
* `panic(msg)` prints a diagnostic to stderr and calls `exit(EXIT_FAILURE)`;
  it is modelled by `Outcome.fatal msg`, whose process exit status is `1`.
* OS socket primitives (`ioctl FIONREAD`, `read`, `accept`, `socket`,
  `bind`, `listen`) are external collaborators: their results enter the
  model as explicit parameters (the probed `available` count, the list of
  bytes a `read` delivers, the accept-event list, the setup-call results).
* `sem_init` on a process-local semaphore with value 1 is modelled as
  always succeeding.
-/

namespace CServer

/-- Result of running a piece of C code that may call `panic` (which prints a
diagnostic and exits the process with `EXIT_FAILURE`). -/
inductive Outcome (α : Type) where
  | ok : α → Outcome α
  | fatal : String → Outcome α
  deriving DecidableEq

/-- The process exit status an `Outcome` produces: `panic` exits with
`EXIT_FAILURE = 1`; a normal result does not exit. -/
def Outcome.exitCode {α : Type} : Outcome α → Option Nat
  | .ok _ => none
  | .fatal _ => some 1

/-- The outcome terminated the process with a non-zero exit status. -/
def Outcome.exitsNonzero {α : Type} (o : Outcome α) : Prop :=
  ∃ c, o.exitCode = some c ∧ c ≠ 0

/-- Model of `struct sockaddr_in` (only the fields `server.c` sets). -/
structure SockAddrIn where
  sin_family : Nat
  sin_port : Nat
  sin_addr : Nat
  deriving DecidableEq

/-- Model of `struct client`: socket the client is connected to and the
address the client connected from. -/
structure Client where
  socket : Int
  address : SockAddrIn
  deriving DecidableEq

/-- Model of `struct client_buffer`: a locked buffer/client pair.  `lock` is
the semaphore value, `buffer`/`alloc` model the heap block (see module
comment), `size` and `bytes_read` are the two `int` fields. -/
structure ClientBuffer where
  lock : Nat
  buffer : Int → Nat
  alloc : Nat
  size : Int
  bytes_read : Int
  client : Client

/-- Overwrite `bs.length` bytes of the byte map `mem` starting at offset
`off` with the elements of `bs` (models `read` writing into
`buffer + bytes_read`). -/
def writeBytes (mem : Int → Nat) (off : Int) (bs : List Nat) : Int → Nat :=
  fun i => if off ≤ i ∧ i < off + bs.length then bs.getD (i - off).toNat 0 else mem i

/-- Embedding of `make_client_buffer` (src/server.c lines 60-83): panics when
`initial_size < 0`, otherwise mallocs `initial_size` bytes, sets `size`,
zero `bytes_read`, stores the client and initialises the semaphore to 1.
Freshly malloced memory is modelled as all zeros (its contents are never
read before being written). -/
def make_client_buffer (client : Client) (initial_size : Int) : Outcome ClientBuffer :=
  if initial_size < 0 then
    .fatal "initial_size of client_buffer less than 0"
  else
    .ok { lock := 1
        , buffer := fun _ => 0
        , alloc := initial_size.toNat
        , size := initial_size
        , bytes_read := 0
        , client := client }

/-- Embedding of `read_available` (src/server.c lines 86-102).  `available`
is the count the `ioctl FIONREAD` probe reports; `incoming` is the byte
sequence the subsequent `read` call actually delivers (its length is the
value `read` returns).  Faithful to the source: the realloc guard is
`size - bytes_read > available`, the new allocation size is
`bytes_read + available + size`, the `size` and `bytes_read` fields are
not modified, and `length != available` panics. -/
def read_available (cb : ClientBuffer) (available : Int) (incoming : List Nat) :
    Outcome (ClientBuffer × Int) :=
  if available > 0 then
    let cb1 := if cb.size - cb.bytes_read > available then
        { cb with alloc := (cb.bytes_read + available + cb.size).toNat }
      else cb
    let cb2 := { cb1 with buffer := writeBytes cb1.buffer cb1.bytes_read incoming }
    if (incoming.length : Int) ≠ available then
      .fatal "reading available bytes"
    else
      .ok (cb2, available)
  else
    .ok (cb, 0)

/-- One pass of the copy loop in `slice_client_buffer`: `n` remaining
iterations, next index `l`; each iteration performs `to[i] = buffer[i]`. -/
def sliceLoop (buf : Int → Nat) (dst : Int → Nat) (l : Int) : Nat → (Int → Nat)
  | 0 => dst
  | n + 1 => sliceLoop buf (fun i => if i = l then buf l else dst i) (l + 1) n

/-- Embedding of `slice_client_buffer` (src/server.c lines 105-125): waits on
the buffer lock, copies `to[i] = buffer[i]` for `i = l .. r`, posts the
lock.  Returns the (unmodified) client buffer together with the updated
destination memory; the `for` loop executes `max 0 (r - l + 1)` times. -/
def slice_client_buffer (cb : ClientBuffer) (l r : Int) (dst : Int → Nat) :
    ClientBuffer × (Int → Nat) :=
  (cb, sliceLoop cb.buffer dst l (r + 1 - l).toNat)

/-- A demonstration peer used for concrete evaluations. -/
def demoClient : Client :=
  { socket := 4, address := { sin_family := 2, sin_port := 8080, sin_addr := 0 } }

/-- The client buffer `run_server` constructs for a fresh connection:
`make_client_buffer(client, 1024)`. -/
def demoBuf : ClientBuffer :=
  { lock := 1
  , buffer := fun _ => 0
  , alloc := 1024
  , size := 1024
  , bytes_read := 0
  , client := demoClient }

/-- The `while (read == 0)` loop body of `handle_client` (src/server.c lines
214-218): calls `read_available`, continues while the result is 0, and exits
the loop the first time the result is non-zero, which becomes the count the
final `printf` reports.  `.ok none` means the modelled activity ran out while
the loop was still spinning (the real loop would keep polling). -/
def drainLoop (cb : ClientBuffer) : List (Int × List Nat) → Outcome (Option (ClientBuffer × Int))
  | [] => .ok none
  | (avail, chunk) :: rest =>
    match read_available cb avail chunk with
    | .fatal msg => .fatal msg
    | .ok (cb', n) => if n = 0 then drainLoop cb' rest else .ok (some (cb', n))

/-- Embedding of `handle_client` (src/server.c lines 212-221): `sem_wait` on
the buffer lock, run the probe loop, report the (single) non-zero count, and
`sem_post` the lock.  `.ok (some (cb, n))` means the function returned after
printing `Received n bytes`. -/
def handle_client (cb : ClientBuffer) (activity : List (Int × List Nat)) :
    Outcome (Option (ClientBuffer × Int)) :=
  match drainLoop { cb with lock := cb.lock - 1 } activity with
  | .fatal msg => .fatal msg
  | .ok none => .ok none
  | .ok (some (cb', n)) => .ok (some ({ cb' with lock := cb'.lock + 1 }, n))

/-- Model of `struct config` (src/server.c lines 128-137). -/
structure Config where
  address : SockAddrIn
  connection_backlog : Nat
  nworkers : Nat
  nrequests : Nat
  deriving DecidableEq

/-- Model of `struct server` (src/server.c lines 164-169). -/
structure Server where
  socket : Int
  config : Config
  deriving DecidableEq

/-- Results of the three OS setup calls `initialize_server` makes, each `-1`
on failure (external collaborators, passed in explicitly). -/
structure SetupCalls where
  socketResult : Int
  bindResult : Int
  listenResult : Int
  deriving DecidableEq

/-- Embedding of `initialize_server` (src/server.c lines 172-193): panics on
`socket`, `bind` or `listen` failure (in that order), otherwise returns the
server handle holding the new socket and the configuration. -/
def initialize_server (cfg : Config) (os : SetupCalls) : Outcome Server :=
  if os.socketResult = -1 then
    .fatal "failed to create socket"
  else if os.bindResult = -1 then
    .fatal "failed to bind socket"
  else if os.listenResult = -1 then
    .fatal "failed to listen on socket"
  else
    .ok { socket := os.socketResult, config := cfg }

/-- The type of the `handle_client` function pointer `run_server` takes,
extended with the connection's socket activity (an external input in the
model). -/
def Handler : Type :=
  ClientBuffer → List (Int × List Nat) → Outcome (Option (ClientBuffer × Int))

/-- One iteration of the accept loop, as seen from outside: either the
`accept` call fails (returns `-1`), or it yields a connected client whose
subsequent socket activity is `activity`. -/
inductive AcceptEvent where
  | acceptFail
  | conn (client : Client) (activity : List (Int × List Nat))
  deriving DecidableEq

/-- Embedding of `run_server` (src/server.c lines 196-209): an infinite
`while (true)` loop that accepts a connection (panicking when `accept`
fails), builds `make_client_buffer(client, 1024)` and calls the handler on
it, synchronously, before the next accept.  The result is the process exit
diagnostic: `some msg` when some iteration panicked, `none` when the loop is
still running after consuming every modelled accept event (the function
never returns normally). -/
def run_server (handle : Handler) (server : Server) : List AcceptEvent → Option String
  | [] => none
  | .acceptFail :: _ => some "failed to accept connection"
  | .conn c act :: rest =>
    match make_client_buffer c 1024 with
    | .fatal msg => some msg
    | .ok cb =>
      match handle cb act with
      | .fatal msg => some msg
      | .ok none => none
      | .ok (some _) => run_server handle server rest

/-- Observable milestones of the accept loop: connection number `idx`
(0-based, in accept order) was accepted and its buffer constructed, or the
handler for connection `idx` returned (its processing slot was released). -/
inductive TraceEvent where
  | accepted (idx : Nat)
  | handled (idx : Nat)
  deriving DecidableEq

/-- The event trace `run_server` produces on the given accept events,
numbering connections from `k`: each successfully handled connection
contributes `accepted i` then `handled i`; a panic, an accept failure, or a
handler that never goes idle ends the trace. -/
def serverTrace (handle : Handler) (server : Server) : Nat → List AcceptEvent → List TraceEvent
  | _, [] => []
  | _, .acceptFail :: _ => []
  | k, .conn c act :: rest =>
    match make_client_buffer c 1024 with
    | .fatal _ => []
    | .ok cb =>
      match handle cb act with
      | .fatal _ => [.accepted k]
      | .ok none => [.accepted k]
      | .ok (some _) => .accepted k :: .handled k :: serverTrace handle server (k + 1) rest

/-- Whether a trace event is an acceptance. -/
def TraceEvent.isAccepted : TraceEvent → Bool
  | .accepted _ => true
  | .handled _ => false

/-- Whether a trace event is a handler completion (slot release). -/
def TraceEvent.isHandled : TraceEvent → Bool
  | .accepted _ => false
  | .handled _ => true

/-- Number of connections being actively processed at the end of a trace
prefix: accepted minus completed. -/
def activeCount (tr : List TraceEvent) : Int :=
  (tr.countP TraceEvent.isAccepted : Int) - (tr.countP TraceEvent.isHandled : Int)

/-- At every point of the trace, at most `n` connections are being actively
processed at once. -/
def ConcurrencyBounded (tr : List TraceEvent) (n : Int) : Prop :=
  ∀ p, p <+: tr → activeCount p ≤ n

/-- Every acceptance waits for all earlier connections to finish: when
connection `j` is accepted, exactly `j` handler completions (slot releases)
precede it in the trace. -/
def AdmissionSequential (tr : List TraceEvent) : Prop :=
  ∀ p j, p ++ [TraceEvent.accepted j] <+: tr → p.countP TraceEvent.isHandled = j

/-- The buffer `run_server` builds for a freshly accepted client `c`:
the value of `make_client_buffer(c, 1024)`. -/
def freshBuf (c : Client) : ClientBuffer :=
  { lock := 1
  , buffer := fun _ => 0
  , alloc := 1024
  , size := 1024
  , bytes_read := 0
  , client := c }

/-- The invariant claimed for every connection buffer: the filled length is
between 0 and the recorded size. -/
def BufInv (cb : ClientBuffer) : Prop :=
  0 ≤ cb.bytes_read ∧ cb.bytes_read ≤ cb.size

/-- A buffer with three filled bytes, for concrete slice evaluations. -/
def demoFilled : ClientBuffer :=
  { lock := 1
  , buffer := fun i => (2 * i + 1).toNat
  , alloc := 4
  , size := 4
  , bytes_read := 3
  , client := demoClient }

/-- A concrete server configuration (nworkers 4, nrequests 400). -/
def demoConfig : Config :=
  { address := { sin_family := 2, sin_port := 8080, sin_addr := 0 }
  , connection_backlog := 500
  , nworkers := 4
  , nrequests := 400 }

/-- A concrete server handle over `demoConfig`. -/
def demoServer : Server := { socket := 3, config := demoConfig }

/-- `demoConfig` with different worker and request bounds only. -/
def demoConfigAlt : Config := { demoConfig with nworkers := 8, nrequests := 1 }

/-- Setup-call results where the `socket` call failed. -/
def demoSetupFail : SetupCalls := { socketResult := -1, bindResult := 0, listenResult := 0 }

/-- A handler that goes idle immediately after reporting one byte. -/
def demoHandler : Handler := fun cb _ => .ok (some (cb, 1))

/-- Two successfully accepted connections with no socket activity. -/
def demoEvents : List AcceptEvent :=
  [.conn demoClient [], .conn demoClient []]

theorem make_demoBuf : make_client_buffer demoClient 1024 = .ok demoBuf := rfl

theorem make_freshBuf (c : Client) : make_client_buffer c 1024 = .ok (freshBuf c) := rfl

/-- Pointwise description of the copy loop: index `i` receives `buf i` when
it lies among the `n` indices starting at `l`, and keeps its old value
otherwise. -/
theorem sliceLoop_apply (buf : Int → Nat) :
    ∀ (n : Nat) (dst : Int → Nat) (l i : Int),
      sliceLoop buf dst l n i = if l ≤ i ∧ i < l + (n : Int) then buf i else dst i := by
  intro n
  induction n with
  | zero =>
    intro dst l i
    rw [sliceLoop, if_neg (by push_cast; omega)]
  | succ n ih =>
    intro dst l i
    rw [sliceLoop, ih]
    by_cases hi : i = l
    · have h1 : ¬(l + 1 ≤ i ∧ i < l + 1 + (n : Int)) := by omega
      have h2 : l ≤ i ∧ i < l + ((n + 1 : Nat) : Int) := by push_cast; omega
      rw [if_neg h1, if_pos hi, if_pos h2, hi]
    · by_cases hin : l + 1 ≤ i ∧ i < l + 1 + (n : Int)
      · have h2 : l ≤ i ∧ i < l + ((n + 1 : Nat) : Int) := by push_cast; omega
        rw [if_pos hin, if_pos h2]
      · have h2 : ¬(l ≤ i ∧ i < l + ((n + 1 : Nat) : Int)) := by push_cast; omega
        rw [if_neg hin, if_neg hi, if_neg h2]

/-- Case analysis for a prefix of a cons. -/
theorem prefix_cases {α : Type} {p : List α} {a : α} {l : List α}
    (h : p <+: a :: l) : p = [] ∨ ∃ q, p = a :: q ∧ q <+: l := by
  cases p with
  | nil => exact Or.inl rfl
  | cons x q =>
    rw [List.cons_prefix_cons] at h
    exact Or.inr ⟨q, by rw [h.1], h.2⟩

/-- Claim C5: whenever the probe reported `available > 0` bytes but the
subsequent `read` delivers fewer, `read_available` panics with the message
`reading available bytes` and the process terminates with a non-zero exit
status; the partial count is never recorded. -/
theorem short_read_panics (cb : ClientBuffer) (available : Int) (incoming : List Nat)
    (hpos : 0 < available) (hshort : (incoming.length : Int) < available) :
    read_available cb available incoming = .fatal "reading available bytes" ∧
    (read_available cb available incoming).exitsNonzero := by
  have hne : (incoming.length : Int) ≠ available := by omega
  have heq : read_available cb available incoming = .fatal "reading available bytes" := by
    unfold read_available
    rw [if_pos hpos, if_pos hne]
  exact ⟨heq, heq ▸ ⟨1, rfl, one_ne_zero⟩⟩

/-- Witness for C5 at the spec scenario: the probe reports 500 bytes but the
read delivers only 400. -/
theorem short_read_panics_witness :
    (0 : Int) < 500 ∧ ((List.replicate 400 1).length : Int) < 500 ∧
    (read_available demoBuf 500 (List.replicate 400 1) = .fatal "reading available bytes" ∧
     (read_available demoBuf 500 (List.replicate 400 1)).exitsNonzero) :=
  ⟨by norm_num, by rw [List.length_replicate]; norm_num,
   short_read_panics demoBuf 500 (List.replicate 400 1) (by norm_num)
     (by rw [List.length_replicate]; norm_num)⟩

/-- Claim C3 is false of the code: `read_available` never advances the
`bytes_read` field.  Concretely, on a fresh 1024-byte buffer a call that
probes and reads 5 bytes returns 5 yet leaves `bytes_read` at 0 instead of
0 + 5. -/
theorem read_leaves_bytes_read_unchanged :
    ∃ cb', read_available demoBuf 5 [10, 20, 30, 40, 50] = .ok (cb', 5) ∧
      demoBuf.bytes_read = 0 ∧ cb'.bytes_read = 0 :=
  ⟨{ demoBuf with
       alloc := 1029
     , buffer := writeBytes demoBuf.buffer 0 [10, 20, 30, 40, 50] },
   rfl, rfl, rfl⟩

/-- Claim C4 is false of the code: the resize guard in `read_available` is
inverted (`size - bytes_read > available` grows the buffer exactly when the
free space is already sufficient).  Concretely, with a fresh 1024-byte
buffer and 2000 bytes available, the free space 1024 is insufficient, yet
the allocation is left at 1024 bytes, so the 2000 bytes written starting at
offset `bytes_read = 0` do not fit inside the allocation. -/
theorem growth_skipped_when_needed :
    ∃ cb', read_available demoBuf 2000 (List.replicate 2000 7) = .ok (cb', 2000) ∧
      demoBuf.size - demoBuf.bytes_read < 2000 ∧
      cb'.alloc = demoBuf.alloc ∧
      (cb'.alloc : Int) < cb'.bytes_read + 2000 := by
  refine ⟨{ demoBuf with buffer := writeBytes demoBuf.buffer 0 (List.replicate 2000 7) },
    ?_, by norm_num [demoBuf], rfl, by norm_num [demoBuf]⟩
  unfold read_available
  rw [if_pos (by norm_num : (2000 : Int) > 0)]
  rw [if_neg (by norm_num [demoBuf] : ¬demoBuf.size - demoBuf.bytes_read > 2000)]
  rw [List.length_replicate]
  rw [if_neg (by norm_num : ¬((2000 : Nat) : Int) ≠ 2000)]
  rfl

/-- Claim C2 is false of the code: the `handle_client` loop runs while
`read_available` returns 0 and exits at the first non-zero return, so it
reports only the first chunk, not the cumulative total.  Concretely, on a
connection delivering 2000 bytes in two chunks of 1000, it returns after
the first chunk and reports 1000 (the claim expects 2000). -/
theorem drain_stops_at_first_nonzero :
    ∃ cb', handle_client demoBuf [(1000, List.replicate 1000 65), (1000, List.replicate 1000 66)]
        = .ok (some (cb', 1000)) := by
  refine ⟨{ demoBuf with
      alloc := 2024
    , buffer := writeBytes demoBuf.buffer 0 (List.replicate 1000 65) }, ?_⟩
  have hra : read_available { demoBuf with lock := demoBuf.lock - 1 } 1000
        (List.replicate 1000 65)
      = .ok ({ demoBuf with
          lock := demoBuf.lock - 1
        , alloc := 2024
        , buffer := writeBytes demoBuf.buffer 0 (List.replicate 1000 65) }, 1000) := by
    unfold read_available
    rw [if_pos (by norm_num : (1000 : Int) > 0)]
    rw [if_pos (show ({ demoBuf with lock := demoBuf.lock - 1 } : ClientBuffer).size
          - ({ demoBuf with lock := demoBuf.lock - 1 } : ClientBuffer).bytes_read > 1000 by
        norm_num [demoBuf])]
    rw [List.length_replicate]
    rw [if_neg (by norm_num : ¬((1000 : Nat) : Int) ≠ 1000)]
    rfl
  rw [handle_client, drainLoop, hra]
  rfl

/-- Claim C10: `make_client_buffer` panics (non-zero exit status) whenever
`initial_size < 0`; for `initial_size ≥ 0` it returns a buffer holding the
given client with `bytes_read = 0`, `size = initial_size`, and the
semaphore initialised to 1 (free). -/
theorem make_client_buffer_spec (client : Client) (isize : Int) :
    (isize < 0 → (make_client_buffer client isize).exitsNonzero) ∧
    (0 ≤ isize → ∃ cb, make_client_buffer client isize = .ok cb ∧
      cb.bytes_read = 0 ∧ cb.size = isize ∧ cb.client = client ∧ cb.lock = 1) := by
  constructor
  · intro h
    unfold make_client_buffer
    rw [if_pos h]
    exact ⟨1, rfl, one_ne_zero⟩
  · intro h
    refine ⟨{ lock := 1, buffer := fun _ => 0, alloc := isize.toNat, size := isize,
              bytes_read := 0, client := client }, ?_, rfl, rfl, rfl, rfl⟩
    unfold make_client_buffer
    rw [if_neg (by omega)]

/-- Witness for C10 at `initial_size = -1` (panic) and `initial_size = 1024`
(normal construction). -/
theorem make_client_buffer_spec_witness :
    ((-1 : Int) < 0 ∧ (make_client_buffer demoClient (-1)).exitsNonzero) ∧
    ((0 : Int) ≤ 1024 ∧ ∃ cb, make_client_buffer demoClient 1024 = .ok cb ∧
      cb.bytes_read = 0 ∧ cb.size = 1024 ∧ cb.client = demoClient ∧ cb.lock = 1) :=
  ⟨⟨by norm_num, (make_client_buffer_spec demoClient (-1)).1 (by norm_num)⟩,
   ⟨by norm_num, (make_client_buffer_spec demoClient 1024).2 (by norm_num)⟩⟩

/-- Claim C6: for valid bounds `0 ≤ l ≤ r` within the filled region,
`slice_client_buffer` is idempotent (a second call with the same arguments
leaves the destination unchanged) and copies for each index `l ≤ i ≤ r`
exactly the buffer byte at index `i`, leaving all other destination bytes
alone. -/
theorem slice_idempotent_and_exact (cb : ClientBuffer) (l r : Int) (dst : Int → Nat)
    (h0 : 0 ≤ l) (h1 : l ≤ r) (h2 : r < cb.bytes_read) :
    (slice_client_buffer cb l r ((slice_client_buffer cb l r dst).2)).2
        = (slice_client_buffer cb l r dst).2 ∧
    (slice_client_buffer cb l r dst).2
        = fun i => if l ≤ i ∧ i ≤ r then cb.buffer i else dst i := by
  have key : ∀ d : Int → Nat,
      (slice_client_buffer cb l r d).2
        = fun i => if l ≤ i ∧ i ≤ r then cb.buffer i else d i := by
    intro d
    funext i
    show sliceLoop cb.buffer d l (r + 1 - l).toNat i
        = if l ≤ i ∧ i ≤ r then cb.buffer i else d i
    rw [sliceLoop_apply, Int.toNat_of_nonneg (show (0 : Int) ≤ r + 1 - l by omega)]
    by_cases h : l ≤ i ∧ i ≤ r
    · rw [if_pos (show l ≤ i ∧ i < l + (r + 1 - l) by omega), if_pos h]
    · rw [if_neg (show ¬(l ≤ i ∧ i < l + (r + 1 - l)) by omega), if_neg h]
  refine ⟨?_, key dst⟩
  rw [key, key]
  funext i
  by_cases h : l ≤ i ∧ i ≤ r
  · simp only [if_pos h]
  · simp only [if_neg h]

/-- Witness for C6 on a buffer with three filled bytes and the full range
`l = 0`, `r = 2`. -/
theorem slice_idempotent_and_exact_witness :
    (0 : Int) ≤ 0 ∧ (0 : Int) ≤ 2 ∧ (2 : Int) < demoFilled.bytes_read ∧
    ((slice_client_buffer demoFilled 0 2
          ((slice_client_buffer demoFilled 0 2 (fun _ => 0)).2)).2
        = (slice_client_buffer demoFilled 0 2 (fun _ => 0)).2 ∧
     (slice_client_buffer demoFilled 0 2 (fun _ => 0)).2
        = fun i => if 0 ≤ i ∧ i ≤ 2 then demoFilled.buffer i else 0) :=
  ⟨le_refl 0, by norm_num, by norm_num [demoFilled],
   slice_idempotent_and_exact demoFilled 0 2 (fun _ => 0) (le_refl 0) (by norm_num)
     (by norm_num [demoFilled])⟩

/-- Claim C8: the invariant `0 ≤ bytes_read ≤ size` holds of every buffer
`make_client_buffer` returns and is preserved by `read_available` (which
modifies neither field) and by `slice_client_buffer` (which modifies the
buffer not at all). -/
theorem buffer_invariant (client : Client) (isize : Int) (cb cbR cb' : ClientBuffer)
    (a n : Int) (incoming : List Nat) (l r : Int) (dst : Int → Nat) :
    (make_client_buffer client isize = .ok cb → BufInv cb) ∧
    (BufInv cbR → read_available cbR a incoming = .ok (cb', n) → BufInv cb') ∧
    (BufInv cbR → BufInv (slice_client_buffer cbR l r dst).1) := by
  refine ⟨?_, ?_, ?_⟩
  · intro h
    unfold make_client_buffer at h
    by_cases hsz : isize < 0
    · rw [if_pos hsz] at h
      simp at h
    · rw [if_neg hsz] at h
      cases h
      refine ⟨le_refl 0, ?_⟩
      show (0 : Int) ≤ isize
      omega
  · intro hinv h
    unfold read_available at h
    by_cases hav : a > 0
    · rw [if_pos hav] at h
      simp only [] at h
      by_cases hlen : (incoming.length : Int) ≠ a
      · rw [if_pos hlen] at h
        simp at h
      · rw [if_neg hlen] at h
        rw [Outcome.ok.injEq, Prod.mk.injEq] at h
        obtain ⟨hcb, -⟩ := h
        subst hcb
        by_cases hc : cbR.size - cbR.bytes_read > a
        · rw [if_pos hc]
          exact hinv
        · rw [if_neg hc]
          exact hinv
    · rw [if_neg hav] at h
      rw [Outcome.ok.injEq, Prod.mk.injEq] at h
      obtain ⟨hcb, -⟩ := h
      subst hcb
      exact hinv
  · intro hinv
    exact hinv

/-- Witness for C8: the invariant holds of the fresh 1024-byte buffer, of
that buffer after a 5-byte `read_available`, and of the buffer
`slice_client_buffer` returns. -/
theorem buffer_invariant_witness :
    BufInv demoBuf ∧
    BufInv { demoBuf with
        alloc := 1029
      , buffer := writeBytes demoBuf.buffer 0 [10, 20, 30, 40, 50] } ∧
    BufInv (slice_client_buffer demoBuf 0 0 (fun _ => 0)).1 := by
  obtain ⟨h1, h2, h3⟩ := buffer_invariant demoClient 1024 demoBuf demoBuf
    { demoBuf with
        alloc := 1029
      , buffer := writeBytes demoBuf.buffer 0 [10, 20, 30, 40, 50] }
    5 5 [10, 20, 30, 40, 50] 0 0 (fun _ => 0)
  have hfresh : BufInv demoBuf := h1 make_demoBuf
  exact ⟨hfresh, h2 hfresh rfl, h3 hfresh⟩

/-- Every prefix of the accept-loop trace has at most one connection being
actively processed: the loop handles each connection to completion before
the next `accept`. -/
theorem trace_active_le_one (handle : Handler) (server : Server) :
    ∀ (events : List AcceptEvent) (k : Nat) (p : List TraceEvent),
      p <+: serverTrace handle server k events → activeCount p ≤ 1 := by
  intro events
  induction events with
  | nil =>
    intro k p hp
    rw [serverTrace, List.prefix_nil] at hp
    subst hp
    simp [activeCount]
  | cons e rest ih =>
    intro k p hp
    cases e with
    | acceptFail =>
      rw [serverTrace, List.prefix_nil] at hp
      subst hp
      simp [activeCount]
    | conn c act =>
      simp only [serverTrace, make_freshBuf] at hp
      cases hh : handle (freshBuf c) act with
      | fatal m =>
        simp only [hh] at hp
        rcases prefix_cases hp with rfl | ⟨q, rfl, hq⟩
        · simp [activeCount]
        · rw [List.prefix_nil] at hq
          subst hq
          simp [activeCount, List.countP_cons, TraceEvent.isAccepted, TraceEvent.isHandled]
      | ok x =>
        cases x with
        | none =>
          simp only [hh] at hp
          rcases prefix_cases hp with rfl | ⟨q, rfl, hq⟩
          · simp [activeCount]
          · rw [List.prefix_nil] at hq
            subst hq
            simp [activeCount, List.countP_cons, TraceEvent.isAccepted, TraceEvent.isHandled]
        | some pr =>
          simp only [hh] at hp
          rcases prefix_cases hp with rfl | ⟨q, rfl, hq⟩
          · simp [activeCount]
          · rcases prefix_cases hq with rfl | ⟨q2, rfl, hq2⟩
            · simp [activeCount, List.countP_cons, TraceEvent.isAccepted, TraceEvent.isHandled]
            · have hle := ih (k + 1) q2 hq2
              have heq : activeCount (TraceEvent.accepted k :: TraceEvent.handled k :: q2)
                  = activeCount q2 := by
                simp [activeCount, List.countP_cons, TraceEvent.isAccepted, TraceEvent.isHandled]
              rw [heq]
              exact hle

/-- In the accept-loop trace, the events preceding `accepted j` contain
exactly `j - k0` handler completions when numbering starts at `k0`: every
admission waits for all previously admitted connections to be handled. -/
theorem trace_accepted_after_handles (handle : Handler) (server : Server) :
    ∀ (events : List AcceptEvent) (k0 : Nat) (p : List TraceEvent) (j : Nat),
      p ++ [TraceEvent.accepted j] <+: serverTrace handle server k0 events →
      j = k0 + p.countP TraceEvent.isHandled := by
  intro events
  induction events with
  | nil =>
    intro k0 p j hp
    rw [serverTrace, List.prefix_nil] at hp
    simp at hp
  | cons e rest ih =>
    intro k0 p j hp
    cases e with
    | acceptFail =>
      rw [serverTrace, List.prefix_nil] at hp
      simp at hp
    | conn c act =>
      simp only [serverTrace, make_freshBuf] at hp
      cases hh : handle (freshBuf c) act with
      | fatal m =>
        simp only [hh] at hp
        rcases hp with ⟨t, ht⟩
        cases p with
        | nil =>
          simp only [List.nil_append, List.cons_append, List.nil_append] at ht
          rw [List.cons.injEq] at ht
          rw [TraceEvent.accepted.injEq] at ht
          simp [ht.1]
        | cons x q =>
          simp only [List.cons_append] at ht
          rw [List.cons.injEq] at ht
          rcases ht with ⟨-, ht⟩
          exact absurd ht (by simp)
      | ok x =>
        cases x with
        | none =>
          simp only [hh] at hp
          rcases hp with ⟨t, ht⟩
          cases p with
          | nil =>
            simp only [List.nil_append, List.cons_append] at ht
            rw [List.cons.injEq] at ht
            rw [TraceEvent.accepted.injEq] at ht
            simp [ht.1]
          | cons x q =>
            simp only [List.cons_append] at ht
            rw [List.cons.injEq] at ht
            rcases ht with ⟨-, ht⟩
            exact absurd ht (by simp)
        | some pr =>
          simp only [hh] at hp
          rcases hp with ⟨t, ht⟩
          simp only [List.cons_append, List.append_assoc, List.singleton_append] at ht
          cases p with
          | nil =>
            simp only [List.nil_append] at ht
            rw [List.cons.injEq] at ht
            rw [TraceEvent.accepted.injEq] at ht
            simp [ht.1]
          | cons x q =>
            simp only [List.cons_append] at ht
            rw [List.cons.injEq] at ht
            obtain ⟨hx, ht⟩ := ht
            cases q with
            | nil =>
              simp only [List.nil_append] at ht
              rw [List.cons.injEq] at ht
              exact absurd ht.1 (by simp)
            | cons y q2 =>
              simp only [List.cons_append] at ht
              rw [List.cons.injEq] at ht
              obtain ⟨hy, ht⟩ := ht
              have hpre : q2 ++ [TraceEvent.accepted j] <+: serverTrace handle server (k0 + 1) rest := by
                refine ⟨t, ?_⟩
                rw [List.append_assoc, List.singleton_append]
                exact ht
              have hj := ih (k0 + 1) q2 j hpre
              subst hx
              subst hy
              simp only [List.countP_cons, TraceEvent.isAccepted, TraceEvent.isHandled]
              simp
              omega

/-- Claim C1: the number of connections being actively processed at once
never exceeds `nrequests` (provided `nrequests ≥ 1`): the accept loop runs
each handler to completion before the next accept, so at most one
connection is ever active, and connection `j` is admitted only after all
`j` previously admitted connections have been handled and released. -/
theorem bounded_admission (handle : Handler) (server : Server) (events : List AcceptEvent)
    (hn : 1 ≤ ((server.config.nrequests : Nat) : Int)) :
    ConcurrencyBounded (serverTrace handle server 0 events)
      ((server.config.nrequests : Nat) : Int) ∧
    AdmissionSequential (serverTrace handle server 0 events) := by
  constructor
  · intro p hp
    exact le_trans (trace_active_le_one handle server events 0 p hp) hn
  · intro p j hp
    have := trace_accepted_after_handles handle server events 0 p j hp
    omega

/-- Witness for C1 with `nrequests = 400` and two accepted connections. -/
theorem bounded_admission_witness :
    1 ≤ ((demoServer.config.nrequests : Nat) : Int) ∧
    (ConcurrencyBounded (serverTrace demoHandler demoServer 0 demoEvents)
        ((demoServer.config.nrequests : Nat) : Int) ∧
     AdmissionSequential (serverTrace demoHandler demoServer 0 demoEvents)) :=
  ⟨by norm_num [demoServer, demoConfig],
   bounded_admission demoHandler demoServer demoEvents (by norm_num [demoServer, demoConfig])⟩

/-- When no accept fails and no handler panics, the accept loop neither
panics nor returns: `run_server` produces no exit. -/
theorem run_server_no_exit (handle : Handler) (server : Server) :
    ∀ events : List AcceptEvent,
      (∀ e ∈ events, e ≠ AcceptEvent.acceptFail) →
      (∀ c act cb, AcceptEvent.conn c act ∈ events →
        ∀ m, handle cb act ≠ Outcome.fatal m) →
      run_server handle server events = none := by
  intro events
  induction events with
  | nil =>
    intro _ _
    rfl
  | cons e rest ih =>
    intro hacc hok
    cases e with
    | acceptFail => exact absurd rfl (hacc _ (List.mem_cons_self _ _))
    | conn c act =>
      simp only [run_server, make_freshBuf]
      cases hh : handle (freshBuf c) act with
      | fatal m => exact absurd hh (hok c act _ (List.mem_cons_self _ _) m)
      | ok x =>
        cases x with
        | none => rfl
        | some pr =>
          exact ih (fun e he => hacc e (List.mem_cons_of_mem _ he))
            (fun c2 act2 cb2 hm m => hok c2 act2 cb2 (List.mem_cons_of_mem _ hm) m)

/-- Claim C7: a failure of `socket`, `bind` or `listen` during
`initialize_server` panics: the process exits at once with a non-zero
status after the diagnostic, with no retry; and in normal operation (no
accept failure, no handler panic) `run_server` never exits. -/
theorem fatal_setup_and_no_normal_exit (cfg : Config) (os : SetupCalls)
    (handle : Handler) (server : Server) (events : List AcceptEvent)
    (hfail : os.socketResult = -1 ∨ os.bindResult = -1 ∨ os.listenResult = -1)
    (hacc : ∀ e ∈ events, e ≠ AcceptEvent.acceptFail)
    (hok : ∀ c act cb, AcceptEvent.conn c act ∈ events →
      ∀ m, handle cb act ≠ Outcome.fatal m) :
    (initialize_server cfg os).exitsNonzero ∧ run_server handle server events = none := by
  constructor
  · unfold initialize_server
    by_cases h1 : os.socketResult = -1
    · rw [if_pos h1]
      exact ⟨1, rfl, one_ne_zero⟩
    · rw [if_neg h1]
      by_cases h2 : os.bindResult = -1
      · rw [if_pos h2]
        exact ⟨1, rfl, one_ne_zero⟩
      · rw [if_neg h2]
        have h3 : os.listenResult = -1 := by tauto
        rw [if_pos h3]
        exact ⟨1, rfl, one_ne_zero⟩
  · exact run_server_no_exit handle server events hacc hok

/-- Witness for C7: a failed `socket` call panics, and the demo run (two
clean connections, a handler that never panics) produces no exit. -/
theorem fatal_setup_and_no_normal_exit_witness :
    (initialize_server demoConfig demoSetupFail).exitsNonzero ∧
    run_server demoHandler demoServer demoEvents = none :=
  fatal_setup_and_no_normal_exit demoConfig demoSetupFail demoHandler demoServer demoEvents
    (Or.inl rfl) (by decide)
    (fun c act cb hm m h => by simp [demoHandler] at h)

/-- `run_server` never reads the server value it is given (it only passes
it along), so its result is the same for any two server handles. -/
theorem run_server_ignores_server (handle : Handler) (s1 s2 : Server) :
    ∀ events : List AcceptEvent, run_server handle s1 events = run_server handle s2 events := by
  intro events
  induction events with
  | nil => rfl
  | cons e rest ih =>
    cases e with
    | acceptFail => rfl
    | conn c act =>
      simp only [run_server, make_freshBuf]
      cases hh : handle (freshBuf c) act with
      | fatal m => simp only [hh]
      | ok x =>
        cases x with
        | none => simp only [hh]
        | some pr =>
          simp only [hh]
          exact ih

/-- `serverTrace` likewise never reads the server value. -/
theorem serverTrace_ignores_server (handle : Handler) (s1 s2 : Server) :
    ∀ (events : List AcceptEvent) (k : Nat),
      serverTrace handle s1 k events = serverTrace handle s2 k events := by
  intro events
  induction events with
  | nil =>
    intro k
    rfl
  | cons e rest ih =>
    intro k
    cases e with
    | acceptFail => rfl
    | conn c act =>
      simp only [serverTrace, make_freshBuf]
      cases hh : handle (freshBuf c) act with
      | fatal m => simp only [hh]
      | ok x =>
        cases x with
        | none => simp only [hh]
        | some pr =>
          simp only [hh]
          rw [ih (k + 1)]

/-- Claim C9: the accept/handle behaviour of `run_server` is identical for
two configurations that differ only in `nworkers` and `nrequests`: neither
field is read after construction and no worker threads are spawned. -/
theorem behavior_config_independent (handle : Handler) (sock : Int) (cfg1 cfg2 : Config)
    (events : List AcceptEvent) (k : Nat)
    (haddr : cfg1.address = cfg2.address)
    (hback : cfg1.connection_backlog = cfg2.connection_backlog) :
    run_server handle { socket := sock, config := cfg1 } events
      = run_server handle { socket := sock, config := cfg2 } events ∧
    serverTrace handle { socket := sock, config := cfg1 } k events
      = serverTrace handle { socket := sock, config := cfg2 } k events :=
  ⟨run_server_ignores_server handle _ _ events,
   serverTrace_ignores_server handle _ _ events k⟩

/-- Witness for C9 on two configs differing only in `nworkers` (4 vs 8) and
`nrequests` (400 vs 1). -/
theorem behavior_config_independent_witness :
    run_server demoHandler { socket := 3, config := demoConfig } demoEvents
      = run_server demoHandler { socket := 3, config := demoConfigAlt } demoEvents ∧
    serverTrace demoHandler { socket := 3, config := demoConfig } 0 demoEvents
      = serverTrace demoHandler { socket := 3, config := demoConfigAlt } 0 demoEvents :=
  behavior_config_independent demoHandler 3 demoConfig demoConfigAlt demoEvents 0 rfl rfl

end CServer
